import Mathlib

/-!
Verification development for the sheets-backed strain submission/rating store
(`enhanced_sheets.py`, class `OptimizedSheetsManager`).

Strings are modelled as `List Char`; Python `str.lower()`/`str.upper()` are
modelled with the ASCII case maps `Char.toLower`/`Char.toUpper` (the data in
scope — hex ids, status words, names — is ASCII).  Machine floats used by the
source for averages are modelled as `ℚ`.
-/

/-- Strings as lists of characters. -/
abbrev Str := List Char

/-- Model of Python `str.lower()` (ASCII). -/
def lowerStr (s : Str) : Str := s.map Char.toLower

/-- Model of Python `str.upper()` (ASCII). -/
def upperStr (s : Str) : Str := s.map Char.toUpper

/-- Model of Python substring containment `needle in hay`. -/
def containsSub (needle hay : Str) : Bool :=
  match hay with
  | [] => needle == []
  | _ :: t => needle.isPrefixOf hay || containsSub needle t

/-- Decimal digit character for a residue `m` (`m % 10` at call sites). -/
def digitChar (m : Nat) : Char :=
  match m with
  | 0 => '0' | 1 => '1' | 2 => '2' | 3 => '3' | 4 => '4'
  | 5 => '5' | 6 => '6' | 7 => '7' | 8 => '8' | _ => '9'

/-- Value of a decimal digit character, `none` on a non-digit. -/
def digitVal (c : Char) : Option Nat :=
  if '0' ≤ c ∧ c ≤ '9' then some (c.toNat - 48) else none

/-- Fuel-driven decimal printer for `Nat` (model of Python `f"{n}"` on a
nonnegative int); the fuel argument is always at least the number's value so
the zero-fuel fallback is never reached. -/
def natToStrGo : Nat → Nat → Str → Str
  | 0, n, acc => digitChar (n % 10) :: acc
  | fuel + 1, n, acc =>
    if n < 10 then digitChar (n % 10) :: acc
    else natToStrGo fuel (n / 10) (digitChar (n % 10) :: acc)

/-- Decimal representation of a `Nat`. -/
def natToStr (n : Nat) : Str := natToStrGo n n []

/-- Model of Python `f"{user_id}"` for an `int`: decimal digits with a leading
minus sign when negative. -/
def intToStr (i : Int) : Str :=
  if i < 0 then '-' :: natToStr i.natAbs else natToStr i.toNat

/-- `_format_user_id_for_sheets`: prefix the decimal form with an apostrophe
to force text format in the sheet. -/
def format_user_id_for_sheets (userId : Int) : Str :=
  '\'' :: intToStr userId

/-- Accumulating decimal parser over digit characters; `none` as soon as a
non-digit is met. -/
def parseNatAux : Str → Nat → Option Nat
  | [], acc => some acc
  | c :: cs, acc =>
    match digitVal c with
    | none => none
    | some d => parseNatAux cs (acc * 10 + d)

/-- Parse a nonempty all-digit string as a `Nat`; `none` otherwise. -/
def parseNat (cs : Str) : Option Nat :=
  if cs = [] then none else parseNatAux cs 0

/-- Model of Python `int(...)` on the apostrophe-stripped string, restricted
to an optional single leading sign followed by ASCII digits (the source never
stores surrounding whitespace, underscore separators or non-ASCII digits). -/
def parseInt (cs : Str) : Option Int :=
  match cs with
  | [] => none
  | c :: rest =>
    if c = '-' then Option.map (fun n : Nat => -(n : Int)) (parseNat rest)
    else if c = '+' then Option.map (fun n : Nat => (n : Int)) (parseNat rest)
    else Option.map (fun n : Nat => (n : Int)) (parseNat cs)

/-- `_extract_user_id_from_sheets`: strip leading apostrophes (`lstrip("'")`),
parse as an integer, and fall back to the sentinel `0` on failure. -/
def extract_user_id_from_sheets (s : Str) : Int :=
  match parseInt (s.dropWhile (fun c => c == '\'')) with
  | some i => i
  | none => 0

lemma digitVal_digitChar : ∀ m, m < 10 → digitVal (digitChar m) = some m := by decide

lemma digitChar_not_sign : ∀ m, m < 10 →
    digitChar m ≠ '-' ∧ digitChar m ≠ '+' ∧ digitChar m ≠ '\'' := by decide

lemma natToStrGo_head (fuel : Nat) : ∀ n acc, n ≤ fuel →
    ∃ m rest, m < 10 ∧ natToStrGo fuel n acc = digitChar m :: rest := by
  induction fuel with
  | zero =>
    intro n acc hn
    exact ⟨n % 10, acc, Nat.mod_lt _ (by norm_num), rfl⟩
  | succ fuel ih =>
    intro n acc hn
    by_cases h : n < 10
    · exact ⟨n % 10, acc, Nat.mod_lt _ (by norm_num), by simp [natToStrGo, h]⟩
    · have hdiv : n / 10 ≤ fuel := by
        have : n / 10 < n := Nat.div_lt_self (by omega) (by norm_num)
        omega
      obtain ⟨m, rest, hm, heq⟩ := ih (n / 10) (digitChar (n % 10) :: acc) hdiv
      exact ⟨m, rest, hm, by simp [natToStrGo, h, heq]⟩

lemma parseNatAux_natToStrGo (fuel : Nat) : ∀ n acc a, n ≤ fuel →
    ∃ k, parseNatAux (natToStrGo fuel n acc) a = parseNatAux acc (a * 10 ^ k + n) := by
  induction fuel with
  | zero =>
    intro n acc a hn
    interval_cases n
    exact ⟨1, by simp [natToStrGo, parseNatAux, digitVal_digitChar 0 (by norm_num)]⟩
  | succ fuel ih =>
    intro n acc a hn
    by_cases h : n < 10
    · refine ⟨1, ?_⟩
      have hd : digitVal (digitChar (n % 10)) = some (n % 10) :=
        digitVal_digitChar _ (Nat.mod_lt _ (by norm_num))
      have hmodn : n % 10 = n := Nat.mod_eq_of_lt h
      rw [hmodn] at hd
      simp [natToStrGo, h, parseNatAux, hd, hmodn]
    · have hdiv : n / 10 ≤ fuel := by
        have : n / 10 < n := Nat.div_lt_self (by omega) (by norm_num)
        omega
      obtain ⟨k, hk⟩ := ih (n / 10) (digitChar (n % 10) :: acc) (a := a) hdiv
      refine ⟨k + 1, ?_⟩
      rw [show natToStrGo (fuel + 1) n acc = natToStrGo fuel (n / 10) (digitChar (n % 10) :: acc) by
        simp [natToStrGo, h]]
      rw [hk]
      have hmod : digitVal (digitChar (n % 10)) = some (n % 10) :=
        digitVal_digitChar _ (Nat.mod_lt _ (by norm_num))
      show parseNatAux (digitChar (n % 10) :: acc) (a * 10 ^ k + n / 10) = _
      have harg : (a * 10 ^ k + n / 10) * 10 + n % 10 = a * 10 ^ (k + 1) + n := by
        rw [pow_succ, ← mul_assoc]
        generalize a * 10 ^ k = C
        omega
      rw [parseNatAux, hmod]
      show parseNatAux acc ((a * 10 ^ k + n / 10) * 10 + n % 10) = _
      rw [harg]

lemma parseNat_natToStr (n : Nat) : parseNat (natToStr n) = some n := by
  obtain ⟨m, rest, _, hhead⟩ := natToStrGo_head n n [] le_rfl
  obtain ⟨k, hk⟩ := parseNatAux_natToStrGo n n [] 0 le_rfl
  have hne : natToStrGo n n [] ≠ [] := by rw [hhead]; simp
  unfold parseNat natToStr
  rw [if_neg hne, hk]
  simp [parseNatAux]

lemma parseInt_intToStr (i : Int) : parseInt (intToStr i) = some i := by
  by_cases hneg : i < 0
  · have h1 : intToStr i = '-' :: natToStr i.natAbs := by simp [intToStr, hneg]
    rw [h1, parseInt, if_pos rfl, parseNat_natToStr]
    simp only [Option.map_some']
    congr 1
    omega
  · have h1 : intToStr i = natToStr i.toNat := by simp [intToStr, hneg]
    obtain ⟨m, rest, hm, hhead⟩ := natToStrGo_head i.toNat i.toNat [] le_rfl
    obtain ⟨hm1, hm2, _⟩ := digitChar_not_sign m hm
    have hhead' : natToStr i.toNat = digitChar m :: rest := hhead
    rw [h1, hhead', parseInt, if_neg hm1, if_neg hm2, ← hhead', parseNat_natToStr]
    simp only [Option.map_some']
    congr 1
    omega

lemma intToStr_head_not_apos (i : Int) :
    ∃ c rest, intToStr i = c :: rest ∧ c ≠ '\'' := by
  by_cases hneg : i < 0
  · exact ⟨'-', natToStr i.natAbs, by simp [intToStr, hneg], by decide⟩
  · obtain ⟨m, rest, hm, hhead⟩ := natToStrGo_head i.toNat i.toNat [] le_rfl
    refine ⟨digitChar m, rest, ?_, (digitChar_not_sign m hm).2.2⟩
    rw [show intToStr i = natToStr i.toNat by simp [intToStr, hneg]]
    exact hhead

/-- C8: the user-id storage encoding round-trips: decoding the
apostrophe-encoded form of any integer user id yields that integer back, and
decoding any string whose apostrophe-stripped form does not parse as an
integer yields the sentinel `0` (the decoder is a total function, so it never
throws). -/
theorem user_id_encoding_roundtrip :
    (∀ userId : Int,
      extract_user_id_from_sheets (format_user_id_for_sheets userId) = userId) ∧
    (∀ s : Str, parseInt (s.dropWhile (fun c => c == '\'')) = none →
      extract_user_id_from_sheets s = 0) := by
  refine ⟨fun userId => ?_, fun s hnone => ?_⟩
  · obtain ⟨c, rest, hc, hcne⟩ := intToStr_head_not_apos userId
    have hdrop : List.dropWhile (fun c => c == '\'') ('\'' :: intToStr userId)
        = intToStr userId := by
      rw [List.dropWhile_cons, if_pos (by simp), hc, List.dropWhile_cons,
        if_neg (by simp [hcne]), ← hc]
    unfold extract_user_id_from_sheets format_user_id_for_sheets
    rw [hdrop, parseInt_intToStr]
  · unfold extract_user_id_from_sheets
    rw [hnone]

/-- Concrete check of the C8 theorem: a full-precision user id survives the
round trip, and a non-numeric stored value decodes to the sentinel `0`. -/
theorem user_id_encoding_roundtrip_witness :
    extract_user_id_from_sheets (format_user_id_for_sheets 123456789012345678)
        = 123456789012345678 ∧
    extract_user_id_from_sheets ("abc".toList) = 0 :=
  ⟨user_id_encoding_roundtrip.1 _, user_id_encoding_roundtrip.2 _ (by decide)⟩

/-- One row of the Strains sheet, as produced by `get_all_records` after the
per-call defaulting of missing `Category` (`'flower'`) and `Producer`
(`'Unknown'`) columns; `Average_Rating` is modelled as `ℚ`. -/
structure Strain where
  uniqueId : Str
  strainName : Str
  status : Str
  averageRating : ℚ
  totalRatings : Nat
  dateAdded : Str
  harvestDate : Str
  packageDate : Str
  category : Str
  producer : Str
deriving DecidableEq, Repr

/-- One row of the Ratings sheet; `User_ID` is kept in its stored string form
(apostrophe-encoded by new writes, possibly plain in legacy rows). -/
structure Rating where
  ratingId : Nat
  uniqueId : Str
  userId : Str
  rating : Int
  dateRated : Str
  username : Str
deriving DecidableEq, Repr

/-- The mutable store owned by the manager: the Strains and Ratings sheets. -/
structure SheetState where
  strains : List Strain
  ratings : List Rating
deriving DecidableEq, Repr

def statusPending : Str := "Pending".toList

def statusApproved : Str := "Approved".toList

/-- The identifier test shared by `_add_rating_operation` and
`approve_strain`: exact match on the upper-cased unique id, or exact match on
the lower-cased strain name. -/
def strainMatchesIdent (identifier : Str) (s : Strain) : Bool :=
  upperStr s.uniqueId == upperStr identifier ||
    lowerStr s.strainName == lowerStr identifier

/-- Optional category filter applied by the read/rating operations:
`[r for r in records if str(r.get('Category','flower')).lower() == category.lower()]`. -/
def catFilter (category : Option Str) (strains : List Strain) : List Strain :=
  match category with
  | none => strains
  | some c => strains.filter (fun s => lowerStr s.category == lowerStr c)

/-- Tokens of the regex obtained from a wildcard query by
`pattern = query.replace('*', '.*').replace('?', '.')`. -/
inductive WTok where
  | lit : Char → WTok
  | dot : WTok
  | dotstar : WTok
deriving DecidableEq, Repr

/-- Translate a wildcard query into pattern tokens (`*` → `.*`, `?` → `.`,
anything else a literal character; queries in scope contain no other regex
metacharacters). -/
def translateWildcard : Str → List WTok
  | [] => []
  | c :: cs =>
    (if c = '*' then WTok.dotstar else if c = '?' then WTok.dot else WTok.lit c)
      :: translateWildcard cs

/-- Fuel-driven matcher: does the token list match some prefix of `s`?
Literals compare case-insensitively (`re.IGNORECASE`), `.` matches any
character except a newline.  A fuel of `tokens + length of s + 1` always
suffices, since every recursive call drops a token or a character. -/
def wmatchGo : Nat → List WTok → Str → Bool
  | 0, ts, _ => ts == []
  | _ + 1, [], _ => true
  | fuel + 1, WTok.lit c :: ts, s =>
    match s with
    | [] => false
    | x :: xs => (x.toLower == c.toLower) && wmatchGo fuel ts xs
  | fuel + 1, WTok.dot :: ts, s =>
    match s with
    | [] => false
    | x :: xs => (x != '\n') && wmatchGo fuel ts xs
  | fuel + 1, WTok.dotstar :: ts, s =>
    wmatchGo fuel ts s ||
      (match s with
       | [] => false
       | x :: xs => (x != '\n') && wmatchGo fuel (WTok.dotstar :: ts) xs)

/-- Match the translated pattern against some prefix of `s`. -/
def wmatch (ts : List WTok) (s : Str) : Bool :=
  wmatchGo (ts.length + s.length + 1) ts s

/-- Model of `regex.search`: the pattern matches starting at some position of
`s` (including the position at the end of the string). -/
def wsearch (ts : List WTok) (s : Str) : Bool :=
  wmatch ts s ||
    (match s with
     | [] => false
     | _ :: xs => wsearch ts xs)

/-- Does the identifier contain a wildcard marker (`'*' in identifier or '?'
in identifier`)? -/
def hasWildcard (identifier : Str) : Bool :=
  identifier.contains '*' || identifier.contains '?'

/-- The pure resolution logic of `get_strain_by_identifier` (the surrounding
60-second cache and thread-safety wrapper are orthogonal to resolution):
exact unique-id match, then exact name match, then wildcard regex search on
the name when the identifier has wildcard markers, else case-insensitive
substring match on the name. -/
def get_strain_by_identifier (records : List Strain) (identifier : Str)
    (category : Option Str) : Option Strain :=
  let rs := catFilter category records
  match rs.find? (fun r => upperStr r.uniqueId == upperStr identifier) with
  | some r => some r
  | none =>
    match rs.find? (fun r => lowerStr r.strainName == lowerStr identifier) with
    | some r => some r
    | none =>
      if hasWildcard identifier then
        rs.find? (fun r => wsearch (translateWildcard identifier) r.strainName)
      else
        rs.find? (fun r => containsSub (lowerStr identifier) (lowerStr r.strainName))

/-- The pure matching logic of `search_strains`: wildcard regex search (or
substring match) against both name and unique id, first 10 matches. -/
def search_strains (records : List Strain) (query : Str)
    (category : Option Str) : List Strain :=
  let rs := catFilter category records
  (if hasWildcard query then
    rs.filter (fun r =>
      wsearch (translateWildcard query) r.strainName ||
        wsearch (translateWildcard query) r.uniqueId)
  else
    rs.filter (fun r =>
      containsSub (lowerStr query) (lowerStr r.strainName) ||
        containsSub (lowerStr query) (lowerStr r.uniqueId))).take 10

/-- `_normalize_strain_name`: lower-case then strip every character that is
not an ASCII letter or digit. -/
def normalize_strain_name (name : Str) : Str :=
  (lowerStr name).filter (fun c => c.isAlphanum)

/-- `check_strain_duplicate`: scan the Strains records for one agreeing on
normalized name, harvest date, package date and lower-cased category, and on
producer whenever the producer argument is truthy (Python `not producer` is
true for both `None` and the empty string); return the first hit's unique id. -/
def check_strain_duplicate (records : List Strain) (strainName harvestDate
    packageDate category : Str) (producer : Option Str) : Option Str :=
  Option.map (fun r => r.uniqueId)
    (records.find? (fun r =>
      normalize_strain_name r.strainName == normalize_strain_name strainName &&
      r.harvestDate == harvestDate &&
      r.packageDate == packageDate &&
      lowerStr r.category == lowerStr category &&
      (match producer with
       | none => true
       | some p => p == [] || r.producer == p)))

/-- `approve_strain`: walk the rows in sheet order; the first row matching the
identifier whose status is `Pending` is flipped to `Approved` (cell update
touching only the status column) and the call succeeds; otherwise it fails
with the sheet unchanged. -/
def approve_strain (identifier : Str) : List Strain → Bool × List Strain
  | [] => (false, [])
  | s :: rest =>
    if strainMatchesIdent identifier s && s.status == statusPending then
      (true, { s with status := statusApproved } :: rest)
    else
      let (b, rest') := approve_strain identifier rest
      (b, s :: rest')

/-- Round a rational to the nearest integer, ties to even — the rounding mode
of Python's `round`. -/
def roundHalfEven (q : ℚ) : ℤ :=
  let n := q.num
  let d := (q.den : ℤ)
  let fl := Int.fdiv n d
  let r := n - d * fl
  if 2 * r < d then fl
  else if d < 2 * r then fl + 1
  else if fl % 2 = 0 then fl else fl + 1

/-- Python `round(x, 2)`, modelled as banker's rounding of `100·q` (the
source rounds a float; mean values of small integer ratings are modelled
exactly in `ℚ`). -/
def round2 (q : ℚ) : ℚ := ((roundHalfEven (q * 100) : ℤ) : ℚ) / 100

/-- `_sanitize_username`: strip surrounding whitespace, replace straight
apostrophes with the curly quote U+2019, and cap at 50 characters. -/
def sanitize_username (username : Str) : Str :=
  if username = [] then []
  else
    (((username.dropWhile Char.isWhitespace).reverse.dropWhile
        Char.isWhitespace).reverse.map
      (fun c => if c = '\'' then Char.ofNat 0x2019 else c)).take 50

/-- Replace the aggregate columns of a strain row
(`Average_Rating`, `Total_Ratings`). -/
def setAgg (avg : ℚ) (total : Nat) (s : Strain) : Strain :=
  { s with averageRating := avg, totalRatings := total }

/-- The write-back loop of `_add_rating_operation`: update the aggregate
cells of the first row whose unique id equals `uid`, leave everything else
untouched. -/
def updateStrainAgg (uid : Str) (avg : ℚ) (total : Nat) : List Strain → List Strain
  | [] => []
  | s :: rest =>
    if s.uniqueId == uid then setAgg avg total s :: rest
    else s :: updateStrainAgg uid avg total rest

/-- The duplicate-rating scan of `_add_rating_operation`: some existing rating
row for the same unique id whose stored user id equals either the plain or
the apostrophe-encoded form of the caller's id. -/
def ratingDupExists (ratings : List Rating) (strainUid : Str) (userId : Int) : Bool :=
  ratings.any (fun r =>
    r.uniqueId == strainUid &&
      (r.userId == intToStr userId || r.userId == format_user_id_for_sheets userId))

/-- Arithmetic mean of a list of integer rating values, in `ℚ`. -/
def ratMean (vals : List Int) : ℚ := ((vals.sum : Int) : ℚ) / (vals.length : ℚ)

/-- `_add_rating_operation` (pure part; `datetime.now()` is passed in as
`dateStr`): resolve the strain by identifier under the optional category
filter, require `Approved` status, reject a duplicate (item, user) rating,
append the new rating row, then recompute the average and count over all of
the item's ratings including the new one and write them back to the first
strain row carrying that unique id. -/
def add_rating_operation (st : SheetState) (identifier : Str) (userId : Int)
    (rating : Int) (username : Str) (category : Option Str) (dateStr : Str) :
    Bool × SheetState :=
  match (catFilter category st.strains).find? (strainMatchesIdent identifier) with
  | none => (false, st)
  | some strainData =>
    if strainData.status ≠ statusApproved then (false, st)
    else if ratingDupExists st.ratings strainData.uniqueId userId then (false, st)
    else
      let newRating : Rating :=
        { ratingId := st.ratings.length + 1
          uniqueId := strainData.uniqueId
          userId := format_user_id_for_sheets userId
          rating := rating
          dateRated := dateStr
          username := sanitize_username username }
      let strainVals :=
        ((st.ratings.filter (fun r => r.uniqueId == strainData.uniqueId)).map
          (fun r => r.rating)) ++ [rating]
      (true,
        { strains :=
            updateStrainAgg strainData.uniqueId (round2 (ratMean strainVals))
              strainVals.length st.strains
          ratings := st.ratings ++ [newRating] })

/-- One rating request: caller id, rating value, captured username, timestamp. -/
structure RateCall where
  userId : Int
  rating : Int
  username : Str
  dateStr : Str
deriving DecidableEq, Repr

/-- Run a sequence of `add_rating` calls for one identifier, reporting whether
every call succeeded together with the final state. -/
def runRatings (identifier : Str) (category : Option Str) :
    SheetState → List RateCall → Bool × SheetState
  | st, [] => (true, st)
  | st, c :: cs =>
    let (ok, st') :=
      add_rating_operation st identifier c.userId c.rating c.username category c.dateStr
    let (oks, st'') := runRatings identifier category st' cs
    (ok && oks, st'')

/-- Sort key of `get_all_approved_strains`: the stored average for a rated
item, `-1` for an item with zero ratings. -/
def approvedSortKey (s : Strain) : ℚ :=
  if 0 < s.totalRatings then s.averageRating else -1

/-- `get_all_approved_strains` (pure part; the 120-second cache wrapper is
orthogonal): filter `Approved` rows, apply the optional category filter, and
stable-sort descending by the sort key. -/
def get_all_approved_strains (records : List Strain) (category : Option Str) :
    List Strain :=
  (catFilter category (records.filter (fun r => r.status == statusApproved))).mergeSort
    (fun a b => approvedSortKey b ≤ approvedSortKey a)

/-- `safe_operation`: execute the wrapped operation; a raised exception is
caught, logged, and turned into the neutral `None` result (the global lock
and the rate-limiter delay affect scheduling only, never the returned value). -/
def safe_operation {α : Type} (operation : Except Str α) : Option α :=
  match operation with
  | Except.ok a => some a
  | Except.error _ => none

/-- The `search_strains` entry point returns `await safe_operation(...) or []`:
an exception surfaces as the empty list. -/
def search_strains_entry (operation : Except Str (List Strain)) : List Strain :=
  (safe_operation operation).getD []

/-- The `get_pending_strains_count` entry point returns `result or 0`. -/
def get_pending_strains_count_entry (operation : Except Str Nat) : Nat :=
  (safe_operation operation).getD 0

/-- The `get_all_approved_strains` entry point returns `... or []`. -/
def get_all_approved_strains_entry (operation : Except Str (List Strain)) :
    List Strain :=
  (safe_operation operation).getD []

/-- A cache as stored in `self.cache`: key, cached value, write timestamp. -/
abbrev CacheMap (α : Type) := List (Str × α × Nat)

/-- Dictionary lookup `self.cache[cache_key]`. -/
def cacheLookup {α : Type} (cache : CacheMap α) (key : Str) : Option (α × Nat) :=
  Option.map (fun e => e.2) (cache.find? (fun e => e.1 == key))

/-- Dictionary assignment `self.cache[cache_key] = (result, time.time())`. -/
def cacheInsert {α : Type} (cache : CacheMap α) (key : Str) (v : α) (ts : Nat) :
    CacheMap α :=
  if cache.any (fun e => e.1 == key) then
    cache.map (fun e => if e.1 == key then (key, v, ts) else e)
  else cache ++ [(key, v, ts)]

/-- `cached_operation` (with the caller-resolved cache duration and the
current time passed explicitly): return a fresh-enough cached value without
executing; otherwise execute through `safe_operation` and cache the result
only when it is not `None`. -/
def cached_operation {α : Type} (cache : CacheMap α) (key : Str)
    (cacheDuration : Nat) (now : Nat) (operation : Except Str α) :
    Option α × CacheMap α :=
  match cacheLookup cache key with
  | some (data, ts) =>
    if now - ts < cacheDuration then (some data, cache)
    else
      match safe_operation operation with
      | some v => (some v, cacheInsert cache key v now)
      | none => (none, cache)
  | none =>
    match safe_operation operation with
    | some v => (some v, cacheInsert cache key v now)
    | none => (none, cache)

/-- Concrete strain-row builder for concrete checks (fixed dates). -/
def mkStrain (uid name status : Str) (avg : ℚ) (total : Nat) (cat prod : Str) :
    Strain :=
  { uniqueId := uid, strainName := name, status := status, averageRating := avg,
    totalRatings := total, dateAdded := "2024-11-01".toList,
    harvestDate := "01-12-2024".toList, packageDate := "15-12-2024".toList,
    category := cat, producer := prod }

/-- C3 counterexample: the translated pattern is applied with an unanchored
`re.search`, so the query "Blue?" (regex `Blue.`) also matches the 10-character
name "Blue Dream" — contradicting the claim that "Blue?" matches no name
longer than 5 characters.  Both wildcard-capable operations match it. -/
theorem wildcard_blueq_longer_name_counterexample :
    ("Blue Dream".toList.length = 10) ∧
    search_strains
        [mkStrain "AAAA0005".toList "Blue Dream".toList statusApproved 0 0
          "flower".toList "Q-Farms".toList] "Blue?".toList none =
      [mkStrain "AAAA0005".toList "Blue Dream".toList statusApproved 0 0
        "flower".toList "Q-Farms".toList] ∧
    get_strain_by_identifier
        [mkStrain "AAAA0005".toList "Blue Dream".toList statusApproved 0 0
          "flower".toList "Q-Farms".toList] "Blue?".toList none =
      some (mkStrain "AAAA0005".toList "Blue Dream".toList statusApproved 0 0
        "flower".toList "Q-Farms".toList) := by
  decide

/-- C3 (amended): under the translation `*`→`.*`, `?`→`.` applied by
`get_strain_by_identifier` and `search_strains` as an unanchored
case-insensitive search, "Blue*" matches "Blue Dream" and "Blueberry" but not
"Sour Diesel"; "Blue?" matches a 5-character name starting with "Blue", does
not match the bare 4-character "Blue", but does match longer names containing
"Blue" followed by one more character (such as "Blue Dream"). -/
theorem wildcard_search_examples :
    search_strains
        [mkStrain "AAAA0001".toList "Blue Dream".toList statusApproved 0 0
          "flower".toList "Q-Farms".toList,
         mkStrain "AAAA0002".toList "Blueberry".toList statusApproved 0 0
          "flower".toList "Q-Farms".toList,
         mkStrain "AAAA0003".toList "Sour Diesel".toList statusApproved 0 0
          "flower".toList "Q-Farms".toList] "Blue*".toList none =
      [mkStrain "AAAA0001".toList "Blue Dream".toList statusApproved 0 0
        "flower".toList "Q-Farms".toList,
       mkStrain "AAAA0002".toList "Blueberry".toList statusApproved 0 0
        "flower".toList "Q-Farms".toList] ∧
    search_strains
        [mkStrain "AAAA0004".toList "BlueX".toList statusApproved 0 0
          "flower".toList "Q-Farms".toList] "Blue?".toList none =
      [mkStrain "AAAA0004".toList "BlueX".toList statusApproved 0 0
        "flower".toList "Q-Farms".toList] ∧
    search_strains
        [mkStrain "AAAA0004".toList "Blue".toList statusApproved 0 0
          "flower".toList "Q-Farms".toList] "Blue?".toList none = [] ∧
    search_strains
        [mkStrain "AAAA0005".toList "Blue Dream".toList statusApproved 0 0
          "flower".toList "Q-Farms".toList] "Blue?".toList none =
      [mkStrain "AAAA0005".toList "Blue Dream".toList statusApproved 0 0
        "flower".toList "Q-Farms".toList] ∧
    get_strain_by_identifier
        [mkStrain "AAAA0003".toList "Sour Diesel".toList statusApproved 0 0
          "flower".toList "Q-Farms".toList,
         mkStrain "AAAA0001".toList "Blue Dream".toList statusApproved 0 0
          "flower".toList "Q-Farms".toList] "Blue*".toList none =
      some (mkStrain "AAAA0001".toList "Blue Dream".toList statusApproved 0 0
        "flower".toList "Q-Farms".toList) := by
  decide

/-- Resolution contract of `get_strain_by_identifier` as the specification
words it (modelled from the spec for comparison): if some record matches the
id exactly, the first such; else if some record matches the name exactly, the
first such; else, when the identifier carries wildcard markers, the first
wildcard match on the name, otherwise the first substring match on the name. -/
def resolveByIdentifierSpec (records : List Strain) (identifier : Str)
    (category : Option Str) : Option Strain :=
  let rs := catFilter category records
  if rs.any (fun r => upperStr r.uniqueId == upperStr identifier) then
    rs.find? (fun r => upperStr r.uniqueId == upperStr identifier)
  else if rs.any (fun r => lowerStr r.strainName == lowerStr identifier) then
    rs.find? (fun r => lowerStr r.strainName == lowerStr identifier)
  else if hasWildcard identifier then
    rs.find? (fun r => wsearch (translateWildcard identifier) r.strainName)
  else
    rs.find? (fun r => containsSub (lowerStr identifier) (lowerStr r.strainName))

/-- C5: `get_strain_by_identifier` resolves in the strict priority order the
specification states — exact case-insensitive unique-id match first, then
exact case-insensitive name match, then (only when the identifier contains
`*` or `?`) the first wildcard-regex match on the name, otherwise the first
case-insensitive substring match on the name; it is a total function that
returns the first hit or `none`. -/
theorem identifier_resolution_priority (records : List Strain)
    (identifier : Str) (category : Option Str) :
    get_strain_by_identifier records identifier category =
      resolveByIdentifierSpec records identifier category := by
  simp only [get_strain_by_identifier, resolveByIdentifierSpec]
  cases h1 : (catFilter category records).find?
      (fun r => upperStr r.uniqueId == upperStr identifier) with
  | some r =>
    have hany : (catFilter category records).any
        (fun r => upperStr r.uniqueId == upperStr identifier) = true := by
      rw [List.any_eq_true]
      exact ⟨r, List.mem_of_find?_eq_some h1, by simpa using List.find?_some h1⟩
    rw [if_pos hany]
  | none =>
    have hany : ¬ (catFilter category records).any
        (fun r => upperStr r.uniqueId == upperStr identifier) = true := by
      rw [List.any_eq_true]
      rintro ⟨x, hx, hpx⟩
      exact absurd hpx (List.find?_eq_none.mp h1 x hx)
    rw [if_neg hany]
    cases h2 : (catFilter category records).find?
        (fun r => lowerStr r.strainName == lowerStr identifier) with
    | some r =>
      have hany2 : (catFilter category records).any
          (fun r => lowerStr r.strainName == lowerStr identifier) = true := by
        rw [List.any_eq_true]
        exact ⟨r, List.mem_of_find?_eq_some h2, by simpa using List.find?_some h2⟩
      rw [if_pos hany2]
    | none =>
      have hany2 : ¬ (catFilter category records).any
          (fun r => lowerStr r.strainName == lowerStr identifier) = true := by
        rw [List.any_eq_true]
        rintro ⟨x, hx, hpx⟩
        exact absurd hpx (List.find?_eq_none.mp h2 x hx)
      rw [if_neg hany2]

/-- Agreement between a stored item and a proposed submission exactly as
claim C4 words it: normalized name, both display-form dates, category, and —
whenever a producer argument is supplied — the producer too (modelled from
the claim for comparison with the code). -/
def duplicateAgreesSpec (strainName harvestDate packageDate category : Str)
    (producer : Option Str) (r : Strain) : Prop :=
  normalize_strain_name r.strainName = normalize_strain_name strainName ∧
  r.harvestDate = harvestDate ∧
  r.packageDate = packageDate ∧
  lowerStr r.category = lowerStr category ∧
  (match producer with
   | none => True
   | some p => r.producer = p)

instance decDuplicateAgreesSpec (strainName harvestDate packageDate category : Str)
    (producer : Option Str) (r : Strain) :
    Decidable (duplicateAgreesSpec strainName harvestDate packageDate category
      producer r) := by
  unfold duplicateAgreesSpec
  cases producer with
  | none => exact inferInstance
  | some p => exact inferInstance

/-- C4 counterexample: Python treats an empty producer string as falsy, so
`check_strain_duplicate` ignores a supplied empty producer: with one stored
item whose producer is "Q-Farms", a query supplying the empty producer and
agreeing on everything else is reported as a duplicate even though the
producers differ — so the claimed "if and only if ... also on the producer"
fails for a supplied empty producer. -/
theorem duplicate_check_empty_producer_counterexample :
    (check_strain_duplicate
        [mkStrain "AAAA0006".toList "Blue Dream".toList statusPending 0 0
          "flower".toList "Q-Farms".toList]
        "Blue Dream".toList "01-12-2024".toList "15-12-2024".toList
        "flower".toList (some [])).isSome = true ∧
    ¬ ∃ r ∈ [mkStrain "AAAA0006".toList "Blue Dream".toList statusPending 0 0
          "flower".toList "Q-Farms".toList],
        duplicateAgreesSpec "Blue Dream".toList "01-12-2024".toList
          "15-12-2024".toList "flower".toList (some []) r := by
  decide

lemma duplicate_cond_iff (strainName harvestDate packageDate category : Str)
    (producer : Option Str) (r : Strain) :
    (normalize_strain_name r.strainName == normalize_strain_name strainName &&
      r.harvestDate == harvestDate &&
      r.packageDate == packageDate &&
      lowerStr r.category == lowerStr category &&
      (match producer with
       | none => true
       | some p => p == [] || r.producer == p)) = true ↔
    (normalize_strain_name r.strainName = normalize_strain_name strainName ∧
      r.harvestDate = harvestDate ∧
      r.packageDate = packageDate ∧
      lowerStr r.category = lowerStr category ∧
      (∀ p, producer = some p → p ≠ [] → r.producer = p)) := by
  cases producer with
  | none =>
    simp only [Bool.and_eq_true, beq_iff_eq]
    constructor
    · rintro ⟨⟨⟨⟨h1, h2⟩, h3⟩, h4⟩, -⟩
      exact ⟨h1, h2, h3, h4, fun p hp => by cases hp⟩
    · rintro ⟨h1, h2, h3, h4, -⟩
      exact ⟨⟨⟨⟨h1, h2⟩, h3⟩, h4⟩, trivial⟩
  | some p =>
    simp only [Bool.and_eq_true, Bool.or_eq_true, beq_iff_eq]
    constructor
    · rintro ⟨⟨⟨⟨h1, h2⟩, h3⟩, h4⟩, h5⟩
      refine ⟨h1, h2, h3, h4, fun p' hp' hne => ?_⟩
      cases hp'
      rcases h5 with h5 | h5
      · exact absurd h5 hne
      · exact h5
    · rintro ⟨h1, h2, h3, h4, h5⟩
      refine ⟨⟨⟨⟨h1, h2⟩, h3⟩, h4⟩, ?_⟩
      by_cases hpe : p = []
      · exact Or.inl hpe
      · exact Or.inr (h5 p rfl hpe)

/-- C4 (amended): `check_strain_duplicate` reports a duplicate if and only if
some existing item agrees on the normalized name, both display-form dates and
the category, and — when a supplied producer is non-empty — also on the
producer (a supplied empty producer behaves as if no producer was supplied);
when it reports a duplicate it returns the unique id of an agreeing item. -/
theorem duplicate_check_characterization (records : List Strain)
    (strainName harvestDate packageDate category : Str)
    (producer : Option Str) :
    ((check_strain_duplicate records strainName harvestDate packageDate
        category producer).isSome = true ↔
      ∃ r ∈ records,
        normalize_strain_name r.strainName = normalize_strain_name strainName ∧
        r.harvestDate = harvestDate ∧
        r.packageDate = packageDate ∧
        lowerStr r.category = lowerStr category ∧
        (∀ p, producer = some p → p ≠ [] → r.producer = p)) ∧
    (∀ uid, check_strain_duplicate records strainName harvestDate packageDate
        category producer = some uid →
      ∃ r ∈ records,
        (normalize_strain_name r.strainName = normalize_strain_name strainName ∧
          r.harvestDate = harvestDate ∧
          r.packageDate = packageDate ∧
          lowerStr r.category = lowerStr category ∧
          (∀ p, producer = some p → p ≠ [] → r.producer = p)) ∧
        r.uniqueId = uid) := by
  constructor
  · unfold check_strain_duplicate
    rw [Option.isSome_map']
    rw [List.find?_isSome]
    constructor
    · rintro ⟨r, hr, hp⟩
      exact ⟨r, hr, (duplicate_cond_iff _ _ _ _ _ r).mp hp⟩
    · rintro ⟨r, hr, hp⟩
      exact ⟨r, hr, (duplicate_cond_iff _ _ _ _ _ r).mpr hp⟩
  · intro uid h
    unfold check_strain_duplicate at h
    rw [Option.map_eq_some'] at h
    rcases h with ⟨r, hfind, huid⟩
    have hpr := List.find?_some hfind
    exact ⟨r, List.mem_of_find?_eq_some hfind,
      (duplicate_cond_iff _ _ _ _ _ r).mp hpr, huid⟩

/-- Concrete check of the C4 amended theorem: with a supplied non-empty
producer that matches, the duplicate is reported with the stored item's id. -/
theorem duplicate_check_characterization_witness :
    ∃ r ∈ [mkStrain "AAAA0007".toList "Blue Dream".toList statusPending 0 0
        "flower".toList "Q-Farms".toList],
      (normalize_strain_name r.strainName =
          normalize_strain_name "blue-dream!".toList ∧
        r.harvestDate = "01-12-2024".toList ∧
        r.packageDate = "15-12-2024".toList ∧
        lowerStr r.category = lowerStr "Flower".toList ∧
        (∀ p, (some "Q-Farms".toList : Option Str) = some p → p ≠ [] →
          r.producer = p)) ∧
      r.uniqueId = "AAAA0007".toList :=
  (duplicate_check_characterization
    [mkStrain "AAAA0007".toList "Blue Dream".toList statusPending 0 0
      "flower".toList "Q-Farms".toList]
    "blue-dream!".toList "01-12-2024".toList "15-12-2024".toList
    "Flower".toList (some "Q-Farms".toList)).2
    "AAAA0007".toList (by decide)

lemma approve_strain_no_match (identifier : Str) :
    ∀ strains : List Strain,
      (∀ s ∈ strains,
        ¬ (strainMatchesIdent identifier s = true ∧ s.status = statusPending)) →
      approve_strain identifier strains = (false, strains) := by
  intro strains
  induction strains with
  | nil => intro _; rfl
  | cons s rest ih =>
    intro h
    have hcond : ¬ ((strainMatchesIdent identifier s &&
        s.status == statusPending) = true) := by
      intro hc
      rw [Bool.and_eq_true, beq_iff_eq] at hc
      exact h s (List.mem_cons_self s rest) hc
    rw [approve_strain, if_neg hcond,
      ih (fun x hx => h x (List.mem_cons_of_mem s hx))]

lemma approve_strain_flip (identifier : Str) (item : Strain)
    (hm : strainMatchesIdent identifier item = true)
    (hp : item.status = statusPending) :
    ∀ l₁ l₂ : List Strain,
      (∀ s ∈ l₁, strainMatchesIdent identifier s = false) →
      approve_strain identifier (l₁ ++ item :: l₂) =
        (true, l₁ ++ { item with status := statusApproved } :: l₂) := by
  intro l₁
  induction l₁ with
  | nil =>
    intro l₂ _
    rw [List.nil_append, List.nil_append, approve_strain,
      if_pos (by rw [Bool.and_eq_true, beq_iff_eq]; exact ⟨hm, hp⟩)]
  | cons s rest ih =>
    intro l₂ h
    have hs : strainMatchesIdent identifier s = false :=
      h s (List.mem_cons_self s rest)
    rw [List.cons_append, List.cons_append, approve_strain,
      if_neg (by simp [hs]), ih l₂ (fun x hx => h x (List.mem_cons_of_mem s hx))]

/-- C6: `approve_strain` fails and changes nothing when every row matching
the identifier is already Approved; fails and changes nothing when no row
matches; and when the rows before `item` do not match and `item` matches and
is Pending, it flips exactly that row's status to Approved, once, and
succeeds (matching is by exact id or case-insensitive name). -/
theorem approve_strain_state_machine (identifier : Str)
    (strains l₁ l₂ : List Strain) (item : Strain) :
    ((∃ s ∈ strains, strainMatchesIdent identifier s = true) ∧
        (∀ s ∈ strains, strainMatchesIdent identifier s = true →
          s.status = statusApproved) →
        approve_strain identifier strains = (false, strains)) ∧
    ((∀ s ∈ strains, strainMatchesIdent identifier s = false) →
        approve_strain identifier strains = (false, strains)) ∧
    (strains = l₁ ++ item :: l₂ →
        (∀ s ∈ l₁, strainMatchesIdent identifier s = false) →
        strainMatchesIdent identifier item = true →
        item.status = statusPending →
        approve_strain identifier strains =
          (true, l₁ ++ { item with status := statusApproved } :: l₂)) := by
  refine ⟨?_, ?_, ?_⟩
  · rintro ⟨-, hall⟩
    apply approve_strain_no_match
    rintro s hs ⟨hmatch, hpend⟩
    have happ := hall s hs hmatch
    rw [happ] at hpend
    exact absurd hpend (by decide)
  · intro hnone
    apply approve_strain_no_match
    rintro s hs ⟨hmatch, -⟩
    rw [hnone s hs] at hmatch
    exact absurd hmatch (by decide)
  · intro heq hskip hm hp
    rw [heq]
    exact approve_strain_flip identifier item hm hp l₁ l₂ hskip

/-- Concrete check of the C6 theorem: approving an Approved item fails,
approving a missing identifier fails, approving a Pending item (behind one
non-matching row) flips exactly its status. -/
theorem approve_strain_state_machine_witness :
    approve_strain "AAAA0008".toList
        [mkStrain "AAAA0008".toList "Blue Dream".toList statusApproved 0 0
          "flower".toList "Q-Farms".toList] =
      (false,
        [mkStrain "AAAA0008".toList "Blue Dream".toList statusApproved 0 0
          "flower".toList "Q-Farms".toList]) ∧
    approve_strain "missing".toList
        [mkStrain "AAAA0008".toList "Blue Dream".toList statusPending 0 0
          "flower".toList "Q-Farms".toList] =
      (false,
        [mkStrain "AAAA0008".toList "Blue Dream".toList statusPending 0 0
          "flower".toList "Q-Farms".toList]) ∧
    approve_strain "AAAA0009".toList
        [mkStrain "BBBB0001".toList "Sour Diesel".toList statusPending 0 0
          "flower".toList "Q-Farms".toList,
         mkStrain "AAAA0009".toList "Blue Dream".toList statusPending 0 0
          "flower".toList "Q-Farms".toList] =
      (true,
        [mkStrain "BBBB0001".toList "Sour Diesel".toList statusPending 0 0
          "flower".toList "Q-Farms".toList,
         mkStrain "AAAA0009".toList "Blue Dream".toList statusApproved 0 0
          "flower".toList "Q-Farms".toList]) :=
  ⟨(approve_strain_state_machine "AAAA0008".toList
      [mkStrain "AAAA0008".toList "Blue Dream".toList statusApproved 0 0
        "flower".toList "Q-Farms".toList] [] []
      (mkStrain "AAAA0008".toList "Blue Dream".toList statusApproved 0 0
        "flower".toList "Q-Farms".toList)).1 (by decide),
   (approve_strain_state_machine "missing".toList
      [mkStrain "AAAA0008".toList "Blue Dream".toList statusPending 0 0
        "flower".toList "Q-Farms".toList] [] []
      (mkStrain "AAAA0008".toList "Blue Dream".toList statusPending 0 0
        "flower".toList "Q-Farms".toList)).2.1 (by decide),
   (approve_strain_state_machine "AAAA0009".toList
      [mkStrain "BBBB0001".toList "Sour Diesel".toList statusPending 0 0
        "flower".toList "Q-Farms".toList,
       mkStrain "AAAA0009".toList "Blue Dream".toList statusPending 0 0
        "flower".toList "Q-Farms".toList]
      [mkStrain "BBBB0001".toList "Sour Diesel".toList statusPending 0 0
        "flower".toList "Q-Farms".toList] []
      (mkStrain "AAAA0009".toList "Blue Dream".toList statusPending 0 0
        "flower".toList "Q-Farms".toList)).2.2
      (by decide) (by decide) (by decide) (by decide)⟩

/-- C9: the `safe_operation` boundary never propagates a backing-store
exception: a throwing operation surfaces as the neutral `none` (and as the
neutral empty list / zero through the list- and count-returning entry
points), and a caller only ever receives a value that the wrapped operation
actually produced. -/
theorem safe_operation_neutral_failure :
    (∀ (α : Type) (msg : Str),
      safe_operation (α := α) (Except.error msg) = none) ∧
    (∀ msg : Str, search_strains_entry (Except.error msg) = []) ∧
    (∀ msg : Str, get_all_approved_strains_entry (Except.error msg) = []) ∧
    (∀ msg : Str, get_pending_strains_count_entry (Except.error msg) = 0) ∧
    (∀ (α : Type) (op : Except Str α) (a : α),
      safe_operation op = some a → op = Except.ok a) := by
  refine ⟨fun α msg => rfl, fun msg => rfl, fun msg => rfl, fun msg => rfl, ?_⟩
  intro α op a h
  cases op with
  | ok b =>
    simp only [safe_operation, Option.some.injEq] at h
    rw [h]
  | error e => simp [safe_operation] at h

/-- Concrete check of the C9 theorem at a throwing and a succeeding
operation. -/
theorem safe_operation_neutral_failure_witness :
    safe_operation (α := Nat) (Except.error "quota exceeded".toList) = none ∧
    search_strains_entry (Except.error "boom".toList) = [] ∧
    (Except.ok 7 : Except Str Nat) = Except.ok 7 :=
  ⟨safe_operation_neutral_failure.1 Nat "quota exceeded".toList,
   safe_operation_neutral_failure.2.1 "boom".toList,
   safe_operation_neutral_failure.2.2.2.2 Nat (Except.ok 7) 7 rfl⟩

/-- C10: `cached_operation` serves a fresh-enough cached value unchanged and
without consulting the operation; on an absent key it executes the operation,
caching the result exactly when it is not the failure value `none`; and on an
expired key it does the same, leaving the stale entry in place on failure. -/
theorem cached_operation_contract {α : Type} (cache : CacheMap α) (key : Str)
    (cacheDuration now : Nat) (op : Except Str α) (v : α) (ts : Nat) :
    (cacheLookup cache key = some (v, ts) → now - ts < cacheDuration →
      cached_operation cache key cacheDuration now op = (some v, cache)) ∧
    (cacheLookup cache key = none →
      cached_operation cache key cacheDuration now op =
        (safe_operation op,
         match safe_operation op with
         | some a => cacheInsert cache key a now
         | none => cache)) ∧
    (cacheLookup cache key = some (v, ts) → ¬ now - ts < cacheDuration →
      cached_operation cache key cacheDuration now op =
        (safe_operation op,
         match safe_operation op with
         | some a => cacheInsert cache key a now
         | none => cache)) := by
  refine ⟨?_, ?_, ?_⟩
  · intro hl hfresh
    unfold cached_operation
    rw [hl]
    simp [hfresh]
  · intro hl
    unfold cached_operation
    rw [hl]
    cases hop : safe_operation op <;> simp
  · intro hl hstale
    unfold cached_operation
    rw [hl]
    simp only [if_neg hstale]
    cases hop : safe_operation op <;> simp

/-- Concrete check of the C10 theorem: a fresh hit is served from the cache
even when the operation would throw, a miss executes and caches a success,
and an expired entry with a throwing operation yields `none` with the cache
unchanged. -/
theorem cached_operation_contract_witness :
    cached_operation [("k".toList, (5 : Nat), 100)] "k".toList 300 200
        (Except.error "boom".toList) = (some 5, [("k".toList, 5, 100)]) ∧
    cached_operation ([] : CacheMap Nat) "k".toList 300 200 (Except.ok 9) =
      (some 9, [("k".toList, 9, 200)]) ∧
    cached_operation [("k".toList, (5 : Nat), 100)] "k".toList 50 200
        (Except.error "boom".toList) = (none, [("k".toList, 5, 100)]) :=
  ⟨(cached_operation_contract [("k".toList, (5 : Nat), 100)] "k".toList 300 200
      (Except.error "boom".toList) 5 100).1 (by decide) (by decide),
   (cached_operation_contract ([] : CacheMap Nat) "k".toList 300 200
      (Except.ok 9) 9 0).2.1 (by decide),
   (cached_operation_contract [("k".toList, (5 : Nat), 100)] "k".toList 50 200
      (Except.error "boom".toList) 5 100).2.2 (by decide) (by decide)⟩

lemma mem_catFilter {category : Option Str} {l : List Strain} {s : Strain}
    (h : s ∈ catFilter category l) : s ∈ l := by
  cases category with
  | none => exact h
  | some c => exact (List.mem_filter.mp h).1

/-- C7: `get_all_approved_strains` returns exactly the Approved items of the
requested category (a permutation of that filter), ordered so that whenever
a later item is rated, every earlier item is rated too with an average at
least as large — i.e. rated items appear in descending average order and
every zero-rating item comes after every rated item.  The hypothesis
reflects the data-model invariant that a rated item's stored average is the
mean of ratings in 1..10 (any value above the `-1` sentinel suffices). -/
theorem approved_listing_sorted (records : List Strain) (category : Option Str)
    (hpos : ∀ s ∈ records, 0 < s.totalRatings → -1 < s.averageRating) :
    (get_all_approved_strains records category).Perm
      (catFilter category (records.filter (fun r => r.status == statusApproved))) ∧
    (get_all_approved_strains records category).Pairwise
      (fun a b => 0 < b.totalRatings →
        0 < a.totalRatings ∧ b.averageRating ≤ a.averageRating) := by
  have hperm : (get_all_approved_strains records category).Perm
      (catFilter category (records.filter (fun r => r.status == statusApproved))) :=
    List.mergeSort_perm _ _
  refine ⟨hperm, ?_⟩
  have hsorted : (get_all_approved_strains records category).Pairwise
      (fun a b => (approvedSortKey b ≤ approvedSortKey a : Bool) = true) := by
    apply List.sorted_mergeSort
    · intro a b c hab hbc
      simp only [decide_eq_true_eq] at *
      exact le_trans hbc hab
    · intro a b
      simp only [Bool.or_eq_true, decide_eq_true_eq]
      exact le_total (approvedSortKey b) (approvedSortKey a)
  have hmem : ∀ s ∈ get_all_approved_strains records category, s ∈ records := by
    intro s hs
    have := hperm.mem_iff.mp hs
    exact (List.mem_filter.mp (mem_catFilter this)).1
  refine hsorted.imp_of_mem ?_
  intro a b ha hb hle hbt
  simp only [decide_eq_true_eq] at hle
  have hbavg : -1 < b.averageRating := hpos b (hmem b hb) hbt
  have hkb : approvedSortKey b = b.averageRating := if_pos hbt
  by_cases hat : 0 < a.totalRatings
  · have hka : approvedSortKey a = a.averageRating := if_pos hat
    rw [hka, hkb] at hle
    exact ⟨hat, hle⟩
  · have hka : approvedSortKey a = -1 := if_neg hat
    rw [hka, hkb] at hle
    exact absurd (lt_of_lt_of_le hbavg hle) (lt_irrefl _)

/-- Concrete check of the C7 theorem: three approved items — zero-rated with
a stored average of 9.99, rated 7.0, rated 9.0 — list as the two rated items
in descending average order followed by the zero-rated item. -/
theorem approved_listing_sorted_witness :
    (get_all_approved_strains
        [mkStrain "CCCC0001".toList "Zero Hero".toList statusApproved
          (999/100) 0 "flower".toList "Q-Farms".toList,
         mkStrain "CCCC0002".toList "Seven".toList statusApproved 7 3
          "flower".toList "Q-Farms".toList,
         mkStrain "CCCC0003".toList "Nine".toList statusApproved 9 2
          "flower".toList "Q-Farms".toList] none).Perm
      (catFilter none
        (List.filter (fun r => r.status == statusApproved)
          [mkStrain "CCCC0001".toList "Zero Hero".toList statusApproved
            (999/100) 0 "flower".toList "Q-Farms".toList,
           mkStrain "CCCC0002".toList "Seven".toList statusApproved 7 3
            "flower".toList "Q-Farms".toList,
           mkStrain "CCCC0003".toList "Nine".toList statusApproved 9 2
            "flower".toList "Q-Farms".toList])) ∧
    (get_all_approved_strains
        [mkStrain "CCCC0001".toList "Zero Hero".toList statusApproved
          (999/100) 0 "flower".toList "Q-Farms".toList,
         mkStrain "CCCC0002".toList "Seven".toList statusApproved 7 3
          "flower".toList "Q-Farms".toList,
         mkStrain "CCCC0003".toList "Nine".toList statusApproved 9 2
          "flower".toList "Q-Farms".toList] none).Pairwise
      (fun a b => 0 < b.totalRatings →
        0 < a.totalRatings ∧ b.averageRating ≤ a.averageRating) :=
  approved_listing_sorted
    [mkStrain "CCCC0001".toList "Zero Hero".toList statusApproved
      (999/100) 0 "flower".toList "Q-Farms".toList,
     mkStrain "CCCC0002".toList "Seven".toList statusApproved 7 3
      "flower".toList "Q-Farms".toList,
     mkStrain "CCCC0003".toList "Nine".toList statusApproved 9 2
      "flower".toList "Q-Farms".toList] none
    (by
      intro s hs _
      fin_cases hs <;> norm_num [mkStrain])

/-- The fields of a strain row that identifier resolution, the category
filter and the status check read (everything except the aggregate columns). -/
def strainKey (s : Strain) : Str × Str × Str × Str :=
  (s.uniqueId, s.strainName, s.status, s.category)

lemma filterFactor {α β : Type} (f : α → β) (c : β → Bool) :
    ∀ l : List α, (l.filter (fun x => c (f x))).map f = (l.map f).filter c := by
  intro l
  induction l with
  | nil => rfl
  | cons x xs ih =>
    by_cases hx : c (f x)
    · simp [List.filter_cons, hx, ih]
    · simp [List.filter_cons, hx, ih]

lemma findFactor {α β : Type} (f : α → β) (q : β → Bool) :
    ∀ l : List α,
      Option.map f (l.find? (fun x => q (f x))) = (l.map f).find? q := by
  intro l
  induction l with
  | nil => rfl
  | cons x xs ih =>
    by_cases hx : q (f x)
    · simp [List.find?_cons, hx]
    · simp [List.find?_cons, hx, ih]

lemma updateStrainAgg_map_key (uid : Str) (avg : ℚ) (total : Nat) :
    ∀ l : List Strain,
      (updateStrainAgg uid avg total l).map strainKey = l.map strainKey := by
  intro l
  induction l with
  | nil => rfl
  | cons s rest ih =>
    by_cases hs : s.uniqueId == uid
    · simp [updateStrainAgg, hs, setAgg, strainKey]
    · simp [updateStrainAgg, hs, strainKey, ih]

lemma catFilter_map_key {l₁ l₂ : List Strain}
    (h : l₁.map strainKey = l₂.map strainKey) (category : Option Str) :
    (catFilter category l₁).map strainKey = (catFilter category l₂).map strainKey := by
  cases category with
  | none => exact h
  | some c =>
    calc (catFilter (some c) l₁).map strainKey
        = (l₁.map strainKey).filter
            (fun k : Str × Str × Str × Str => lowerStr k.2.2.2 == lowerStr c) :=
          filterFactor strainKey
            (fun k : Str × Str × Str × Str => lowerStr k.2.2.2 == lowerStr c) l₁
      _ = (l₂.map strainKey).filter
            (fun k : Str × Str × Str × Str => lowerStr k.2.2.2 == lowerStr c) := by
          rw [h]
      _ = (catFilter (some c) l₂).map strainKey :=
          (filterFactor strainKey
            (fun k : Str × Str × Str × Str => lowerStr k.2.2.2 == lowerStr c) l₂).symm

lemma find_matches_map_key {l₁ l₂ : List Strain}
    (h : l₁.map strainKey = l₂.map strainKey) (identifier : Str) :
    Option.map strainKey (l₁.find? (strainMatchesIdent identifier)) =
      Option.map strainKey (l₂.find? (strainMatchesIdent identifier)) := by
  calc Option.map strainKey (l₁.find? (strainMatchesIdent identifier))
      = (l₁.map strainKey).find?
          (fun k : Str × Str × Str × Str =>
            upperStr k.1 == upperStr identifier ||
              lowerStr k.2.1 == lowerStr identifier) :=
        findFactor strainKey
          (fun k : Str × Str × Str × Str =>
            upperStr k.1 == upperStr identifier ||
              lowerStr k.2.1 == lowerStr identifier) l₁
    _ = (l₂.map strainKey).find?
          (fun k : Str × Str × Str × Str =>
            upperStr k.1 == upperStr identifier ||
              lowerStr k.2.1 == lowerStr identifier) := by rw [h]
    _ = Option.map strainKey (l₂.find? (strainMatchesIdent identifier)) :=
        (findFactor strainKey
          (fun k : Str × Str × Str × Str =>
            upperStr k.1 == upperStr identifier ||
              lowerStr k.2.1 == lowerStr identifier) l₂).symm

lemma updateStrainAgg_find_uid (uid : Str) (avg : ℚ) (total : Nat) :
    ∀ l : List Strain,
      (updateStrainAgg uid avg total l).find? (fun s => s.uniqueId == uid) =
        Option.map (setAgg avg total) (l.find? (fun s => s.uniqueId == uid)) := by
  intro l
  induction l with
  | nil => rfl
  | cons s rest ih =>
    by_cases hs : s.uniqueId == uid
    · have hs' : (setAgg avg total s).uniqueId == uid := hs
      simp [updateStrainAgg, hs, List.find?_cons, hs']
    · simp [updateStrainAgg, hs, List.find?_cons, ih]

lemma find_uid_of_mem_pairwise {l : List Strain} {item : Strain}
    (hdist : l.Pairwise (fun a b => a.uniqueId ≠ b.uniqueId))
    (hmem : item ∈ l) :
    l.find? (fun s => s.uniqueId == item.uniqueId) = some item := by
  induction l with
  | nil => cases hmem
  | cons s rest ih =>
    rcases List.mem_cons.mp hmem with heq | hmem'
    · subst heq
      simp [List.find?_cons]
    · have hne : s.uniqueId ≠ item.uniqueId :=
        (List.pairwise_cons.mp hdist).1 item hmem'
      have hs : (s.uniqueId == item.uniqueId) = false := by
        simp [hne]
      rw [List.find?_cons, hs]
      exact ih (List.pairwise_cons.mp hdist).2 hmem'

/-- The rating row appended by a successful `_add_rating_operation`. -/
def newRatingRow (st : SheetState) (sd : Strain) (userId rating : Int)
    (username dateStr : Str) : Rating :=
  { ratingId := st.ratings.length + 1
    uniqueId := sd.uniqueId
    userId := format_user_id_for_sheets userId
    rating := rating
    dateRated := dateStr
    username := sanitize_username username }

/-- The rating values `_add_rating_operation` aggregates over: every stored
rating of the resolved strain plus the just-inserted value. -/
def aggVals (st : SheetState) (sd : Strain) (rating : Int) : List Int :=
  ((st.ratings.filter (fun r => r.uniqueId == sd.uniqueId)).map
    (fun r => r.rating)) ++ [rating]

lemma add_rating_success {st st' : SheetState} {identifier : Str}
    {userId rating : Int} {username : Str} {category : Option Str}
    {dateStr : Str}
    (h : add_rating_operation st identifier userId rating username category
      dateStr = (true, st')) :
    ∃ sd, (catFilter category st.strains).find? (strainMatchesIdent identifier)
        = some sd ∧
      sd.status = statusApproved ∧
      ratingDupExists st.ratings sd.uniqueId userId = false ∧
      st' = { strains :=
                updateStrainAgg sd.uniqueId
                  (round2 (ratMean (aggVals st sd rating)))
                  (aggVals st sd rating).length st.strains
              ratings := st.ratings ++
                [newRatingRow st sd userId rating username dateStr] } := by
  unfold add_rating_operation at h
  split at h
  · exact absurd h (by simp)
  next sd hfind =>
    split at h
    · exact absurd h (by simp)
    next hstat =>
      split at h
      next hdup => exact absurd h (by simp)
      next hdup =>
        refine ⟨sd, hfind, not_not.mp hstat, Bool.not_eq_true _ ▸ (by simpa using hdup), ?_⟩
        rw [Prod.mk.injEq] at h
        exact h.2.symm

/-- C2: at most one rating per (item, user): (a) the pre-insert scan rejects
the call whenever some stored rating row for the resolved strain carries the
caller's user id in either the plain or the apostrophe-encoded form, leaving
the state unchanged; (b) after any successful rating, a second rating by the
same user through the same identifier and category always fails. -/
theorem duplicate_rating_rejected (st st' : SheetState) (identifier : Str)
    (u v v' : Int) (un un' : Str) (cat : Option Str) (d d' : Str)
    (sd : Strain) (r : Rating) :
    ((catFilter cat st.strains).find? (strainMatchesIdent identifier) = some sd →
      sd.status = statusApproved →
      r ∈ st.ratings → r.uniqueId = sd.uniqueId →
      (r.userId = intToStr u ∨ r.userId = format_user_id_for_sheets u) →
      add_rating_operation st identifier u v un cat d = (false, st)) ∧
    (add_rating_operation st identifier u v un cat d = (true, st') →
      (add_rating_operation st' identifier u v' un' cat d').1 = false) := by
  constructor
  · intro hfind happr hr hruid hu
    have hdup : ratingDupExists st.ratings sd.uniqueId u = true := by
      unfold ratingDupExists
      rw [List.any_eq_true]
      refine ⟨r, hr, ?_⟩
      rw [Bool.and_eq_true, Bool.or_eq_true]
      refine ⟨by simp [hruid], ?_⟩
      rcases hu with hu | hu
      · exact Or.inl (by simp [hu])
      · exact Or.inr (by simp [hu])
    unfold add_rating_operation
    simp only [hfind]
    rw [if_neg (fun hne => hne happr), if_pos hdup]
  · intro h
    obtain ⟨sd, hfind, happr, hdup, hst'⟩ := add_rating_success h
    have hkeymap : st'.strains.map strainKey = st.strains.map strainKey := by
      rw [hst']
      exact updateStrainAgg_map_key _ _ _ _
    have hfindmap : Option.map strainKey
        ((catFilter cat st'.strains).find? (strainMatchesIdent identifier)) =
        some (strainKey sd) := by
      rw [find_matches_map_key (catFilter_map_key hkeymap cat) identifier, hfind]
      rfl
    obtain ⟨sd', hfind', hkey⟩ := Option.map_eq_some'.mp hfindmap
    simp only [strainKey, Prod.mk.injEq] at hkey
    obtain ⟨huid, -, hstat, -⟩ := hkey
    have hdup' : ratingDupExists st'.ratings sd'.uniqueId u = true := by
      unfold ratingDupExists
      rw [List.any_eq_true]
      refine ⟨newRatingRow st sd u v un d, ?_, ?_⟩
      · rw [hst']
        exact List.mem_append.mpr (Or.inr (by simp))
      · rw [Bool.and_eq_true, Bool.or_eq_true]
        exact ⟨by simp [newRatingRow, huid], Or.inr (by simp [newRatingRow])⟩
    unfold add_rating_operation
    simp only [hfind']
    rw [if_neg (fun hne => hne (hstat.trans happr)), if_pos hdup']

lemma pair_fst_true {β : Type} (p : Bool × β) (h : p.1 = true) :
    p = (true, p.2) := by
  rw [← h]

/-- Concrete rating-row builder for concrete checks. -/
def mkRating (rid : Nat) (uid userId : Str) (value : Int) : Rating :=
  { ratingId := rid, uniqueId := uid, userId := userId, rating := value,
    dateRated := "2024-11-02 10:00:00".toList, username := "alice".toList }

/-- Concrete check of the C2 theorem: a stored plain-form (legacy) rating row
blocks the same user's rating; and after a successful rating the same user's
second attempt through the same identifier fails. -/
theorem duplicate_rating_rejected_witness :
    add_rating_operation
        ⟨[mkStrain "DDDD0001".toList "Blue Dream".toList statusApproved 7 1
            "flower".toList "Q-Farms".toList],
          [mkRating 1 "DDDD0001".toList "5".toList 7]⟩
        "DDDD0001".toList 5 9 "bob".toList none "t2".toList =
      (false,
        ⟨[mkStrain "DDDD0001".toList "Blue Dream".toList statusApproved 7 1
            "flower".toList "Q-Farms".toList],
          [mkRating 1 "DDDD0001".toList "5".toList 7]⟩) ∧
    (add_rating_operation
        (add_rating_operation
          ⟨[mkStrain "DDDD0002".toList "Blueberry".toList statusApproved 0 0
              "flower".toList "Q-Farms".toList], []⟩
          "DDDD0002".toList 6 8 "eve".toList none "t1".toList).2
        "DDDD0002".toList 6 7 "eve".toList none "t3".toList).1 = false :=
  ⟨(duplicate_rating_rejected
      ⟨[mkStrain "DDDD0001".toList "Blue Dream".toList statusApproved 7 1
          "flower".toList "Q-Farms".toList],
        [mkRating 1 "DDDD0001".toList "5".toList 7]⟩
      ⟨[mkStrain "DDDD0001".toList "Blue Dream".toList statusApproved 7 1
          "flower".toList "Q-Farms".toList],
        [mkRating 1 "DDDD0001".toList "5".toList 7]⟩
      "DDDD0001".toList 5 9 9 "bob".toList "bob".toList none "t2".toList
      "t2".toList
      (mkStrain "DDDD0001".toList "Blue Dream".toList statusApproved 7 1
        "flower".toList "Q-Farms".toList)
      (mkRating 1 "DDDD0001".toList "5".toList 7)).1
      (by decide) (by decide) (by decide) (by decide) (Or.inl (by decide)),
   (duplicate_rating_rejected
      ⟨[mkStrain "DDDD0002".toList "Blueberry".toList statusApproved 0 0
          "flower".toList "Q-Farms".toList], []⟩
      (add_rating_operation
        ⟨[mkStrain "DDDD0002".toList "Blueberry".toList statusApproved 0 0
            "flower".toList "Q-Farms".toList], []⟩
        "DDDD0002".toList 6 8 "eve".toList none "t1".toList).2
      "DDDD0002".toList 6 8 7 "eve".toList "eve".toList none "t1".toList
      "t3".toList
      (mkStrain "DDDD0002".toList "Blueberry".toList statusApproved 0 0
        "flower".toList "Q-Farms".toList)
      (mkRating 1 "DDDD0002".toList "6".toList 8)).2
      (pair_fst_true _ (by decide))⟩

lemma updateStrainAgg_map_uid (uid : Str) (avg : ℚ) (total : Nat) :
    ∀ l : List Strain,
      (updateStrainAgg uid avg total l).map (fun s => s.uniqueId) =
        l.map (fun s => s.uniqueId) := by
  intro l
  induction l with
  | nil => rfl
  | cons s rest ih =>
    by_cases hs : s.uniqueId == uid
    · simp [updateStrainAgg, hs, setAgg]
    · simp [updateStrainAgg, hs, ih]

lemma pairwise_uid_of_map_uid_eq {l₁ l₂ : List Strain}
    (h : l₁.map (fun s => s.uniqueId) = l₂.map (fun s => s.uniqueId))
    (hp : l₂.Pairwise (fun a b => a.uniqueId ≠ b.uniqueId)) :
    l₁.Pairwise (fun a b => a.uniqueId ≠ b.uniqueId) := by
  have h₂ : (l₂.map (fun s => s.uniqueId)).Pairwise (fun a b => a ≠ b) :=
    List.pairwise_map.mpr hp
  rw [← h] at h₂
  exact List.pairwise_map.mp h₂

lemma setAgg_setAgg (a₁ a₂ : ℚ) (t₁ t₂ : Nat) (s : Strain) :
    setAgg a₂ t₂ (setAgg a₁ t₁ s) = setAgg a₂ t₂ s := rfl

lemma runRatings_agg (identifier uid : Str) :
    ∀ calls : List RateCall, calls ≠ [] →
      ∀ st : SheetState,
      st.strains.Pairwise (fun a b => a.uniqueId ≠ b.uniqueId) →
      (∀ sd, st.strains.find? (strainMatchesIdent identifier) = some sd →
        sd.uniqueId = uid ∧ sd.status = statusApproved) →
      (runRatings identifier none st calls).1 = true →
      (runRatings identifier none st calls).2.strains.find?
          (fun s => s.uniqueId == uid) =
        Option.map
          (setAgg
            (round2 (ratMean
              ((st.ratings.filter (fun r => r.uniqueId == uid)).map
                  (fun r => r.rating) ++ calls.map (fun c => c.rating))))
            (((st.ratings.filter (fun r => r.uniqueId == uid)).map
                (fun r => r.rating) ++ calls.map (fun c => c.rating)).length))
          (st.strains.find? (fun s => s.uniqueId == uid)) := by
  intro calls
  induction calls with
  | nil => intro hne; exact absurd rfl hne
  | cons c cs ih =>
    intro _ st hdist hres hok
    rcases hadd : add_rating_operation st identifier c.userId c.rating
      c.username none c.dateStr with ⟨ok, st₁⟩
    have hrun : runRatings identifier none st (c :: cs) =
        (ok && (runRatings identifier none st₁ cs).1,
         (runRatings identifier none st₁ cs).2) := by
      simp only [runRatings, hadd]
    have hok' : (ok && (runRatings identifier none st₁ cs).1) = true := by
      rw [hrun] at hok
      exact hok
    rw [Bool.and_eq_true] at hok'
    obtain ⟨hok1, hokcs⟩ := hok'
    subst hok1
    obtain ⟨sd, hfind, happr, hdup, hst1⟩ := add_rating_success hadd
    obtain ⟨huid, -⟩ := hres sd hfind
    have haggv : aggVals st sd c.rating =
        (st.ratings.filter (fun r => r.uniqueId == uid)).map
          (fun r => r.rating) ++ [c.rating] := by
      simp only [aggVals, huid]
    subst hst1
    rw [hrun]
    rcases cs with _ | ⟨c₂, cs₂⟩
    · show (updateStrainAgg sd.uniqueId (round2 (ratMean (aggVals st sd c.rating)))
          (aggVals st sd c.rating).length st.strains).find?
            (fun s => s.uniqueId == uid) = _
      rw [huid, updateStrainAgg_find_uid, haggv]
      simp only [List.map_cons, List.map_nil]
    · have hne₂ : (c₂ :: cs₂ : List RateCall) ≠ [] := List.cons_ne_nil _ _
      have hdist₁ : (updateStrainAgg sd.uniqueId
          (round2 (ratMean (aggVals st sd c.rating)))
          (aggVals st sd c.rating).length st.strains).Pairwise
            (fun a b => a.uniqueId ≠ b.uniqueId) :=
        pairwise_uid_of_map_uid_eq (updateStrainAgg_map_uid _ _ _ _) hdist
      have hres₁ : ∀ sd', (updateStrainAgg sd.uniqueId
          (round2 (ratMean (aggVals st sd c.rating)))
          (aggVals st sd c.rating).length st.strains).find?
            (strainMatchesIdent identifier) = some sd' →
          sd'.uniqueId = uid ∧ sd'.status = statusApproved := by
        intro sd' h'
        have hmapeq : (updateStrainAgg sd.uniqueId
            (round2 (ratMean (aggVals st sd c.rating)))
            (aggVals st sd c.rating).length st.strains).map strainKey =
            st.strains.map strainKey :=
          updateStrainAgg_map_key _ _ _ _
        have hcongr := find_matches_map_key hmapeq identifier
        rw [h'] at hcongr
        obtain ⟨sd₀, hfind₀, hkey₀⟩ := Option.map_eq_some'.mp hcongr.symm
        obtain ⟨h0uid, h0app⟩ := hres sd₀ hfind₀
        simp only [strainKey, Prod.mk.injEq] at hkey₀
        obtain ⟨e1, -, e3, -⟩ := hkey₀
        exact ⟨e1.symm.trans h0uid, e3.symm.trans h0app⟩
      have hih := ih hne₂
        ⟨updateStrainAgg sd.uniqueId
          (round2 (ratMean (aggVals st sd c.rating)))
          (aggVals st sd c.rating).length st.strains,
         st.ratings ++ [newRatingRow st sd c.userId c.rating c.username c.dateStr]⟩
        hdist₁ hres₁ hokcs
      have hratings₁ : (((st.ratings ++
          [newRatingRow st sd c.userId c.rating c.username c.dateStr]).filter
            (fun r => r.uniqueId == uid)).map (fun r => r.rating)) =
          (st.ratings.filter (fun r => r.uniqueId == uid)).map
            (fun r => r.rating) ++ [c.rating] := by
        rw [List.filter_append, List.map_append]
        congr 1
        simp [newRatingRow, List.filter_cons, huid]
      rw [hratings₁] at hih
      rw [hih, huid, updateStrainAgg_find_uid]
      cases hx : st.strains.find? (fun s => s.uniqueId == uid) with
      | none => rfl
      | some s0 =>
        simp only [Option.map_some', setAgg_setAgg, Option.some.injEq]
        rw [List.append_assoc]
        simp only [List.singleton_append, List.map_cons]

/-- C1: for an approved item resolved by `identifier` in a sheet with
collision-free unique ids and no prior ratings for the item, after any
nonempty sequence of all-successful `add_rating` calls inserting values
`r1..rn`, the item's row stores `average_rating = round2(mean(r1..rn))` and
`total_ratings = n` — every successful call recomputes both derived fields
over all of the item's ratings including the just-inserted one and writes
them back to the item's row. -/
theorem rating_aggregate_recomputed (st0 : SheetState) (item : Strain)
    (identifier : Str) (calls : List RateCall)
    (hdist : st0.strains.Pairwise (fun a b => a.uniqueId ≠ b.uniqueId))
    (hfind : st0.strains.find? (strainMatchesIdent identifier) = some item)
    (happr : item.status = statusApproved)
    (hnoprior : ∀ r ∈ st0.ratings, r.uniqueId ≠ item.uniqueId)
    (hne : calls ≠ [])
    (hok : (runRatings identifier none st0 calls).1 = true) :
    (runRatings identifier none st0 calls).2.strains.find?
        (fun s => s.uniqueId == item.uniqueId) =
      some (setAgg (round2 (ratMean (calls.map (fun c => c.rating))))
        calls.length item) := by
  have hres : ∀ sd, st0.strains.find? (strainMatchesIdent identifier) = some sd →
      sd.uniqueId = item.uniqueId ∧ sd.status = statusApproved := by
    intro sd h
    rw [hfind] at h
    cases h
    exact ⟨rfl, happr⟩
  have hmain := runRatings_agg identifier item.uniqueId calls hne st0 hdist hres hok
  have hdone : st0.ratings.filter (fun r => r.uniqueId == item.uniqueId) = [] := by
    rw [List.filter_eq_nil_iff]
    intro r hr
    simpa using hnoprior r hr
  rw [hdone, List.map_nil, List.nil_append,
    find_uid_of_mem_pairwise hdist (List.mem_of_find?_eq_some hfind)] at hmain
  rw [hmain, Option.map_some', List.length_map]

/-- Concrete check of the C1 theorem: two users rate an approved item 8 and
6; its row then stores average `round2((8+6)/2) = 7` and total `2`. -/
theorem rating_aggregate_recomputed_witness :
    (runRatings "EEEE0001".toList none
        ⟨[mkStrain "EEEE0001".toList "Blue Dream".toList statusApproved 0 0
            "flower".toList "Q-Farms".toList], []⟩
        [⟨1, 8, "u1".toList, "d1".toList⟩,
         ⟨2, 6, "u2".toList, "d2".toList⟩]).2.strains.find?
      (fun s => s.uniqueId ==
        (mkStrain "EEEE0001".toList "Blue Dream".toList statusApproved 0 0
          "flower".toList "Q-Farms".toList).uniqueId) =
      some (setAgg (round2 (ratMean [8, 6])) 2
        (mkStrain "EEEE0001".toList "Blue Dream".toList statusApproved 0 0
          "flower".toList "Q-Farms".toList)) :=
  rating_aggregate_recomputed
    ⟨[mkStrain "EEEE0001".toList "Blue Dream".toList statusApproved 0 0
        "flower".toList "Q-Farms".toList], []⟩
    (mkStrain "EEEE0001".toList "Blue Dream".toList statusApproved 0 0
      "flower".toList "Q-Farms".toList)
    "EEEE0001".toList
    [⟨1, 8, "u1".toList, "d1".toList⟩, ⟨2, 6, "u2".toList, "d2".toList⟩]
    (by simp) (by decide) (by decide) (by simp) (by simp) (by decide)
